import Mathlib

/-!
# MatrixAdd GPU kernels (`user_ops/kernels/matrix_add_kernel_gpu.cu.cc`)

A shallow embedding of the forward / backward kernels and of the two host-side
launchers `MatrixAddFunctor<GPUDevice, Dtype>::launch` and
`MatrixAddGrad<GPUDevice, Dtype>::launch`.

* Device global memory is a total map from element-sized cells to values; a raw
  pointer `T*` is the cell offset of its first element, so `Z[i]` is the cell `Z + i`.
* A kernel launch `k<<<gridDim, blockDim>>>` runs the kernel body once per thread;
  the threads are run one after the other in order of their linear id
  (`forward_schedule_independent`: any other order gives the same memory).
* The compute stream records every submitted operation and every health query.
-/

namespace tensorflow

/-! ## Machine integers -/

/-- Conversion of an integer to `int` (32-bit two's complement): reduce modulo `2^32`
into `[-2^31, 2^31)`. -/
def toInt32 (x : Int) : Int := (x + 2147483648) % 4294967296 - 2147483648

/-- Conversion of an integer to `size_t` (64-bit unsigned): reduce modulo `2^64`. -/
def toSizeT (x : Int) : Nat := (x % 18446744073709551616).toNat

/-- The element type `int`: a 32-bit signed integer. -/
structure Int32 where
  toInt : Int
  lo : -2147483648 ≤ toInt
  hi : toInt < 2147483648
deriving DecidableEq

/-- Narrowing of an integer to the element type `int`. -/
def Int32.ofInt (x : Int) : Int32 :=
  ⟨toInt32 x, by unfold toInt32; omega, by unfold toInt32; omega⟩

/-- Multiplication of two `size_t` values. -/
def mulSizeT (a b : Nat) : Nat := (a * b) % 18446744073709551616

/-- Device addition of two `int` values: two's-complement wraparound. -/
instance : Add Int32 := ⟨fun a b => Int32.ofInt (a.toInt + b.toInt)⟩

/-! ## Device memory, tensors, launch configuration -/

/-- Device global memory, one cell per element. -/
abbrev Mem (T : Type) := Nat → T

/-- A tensor handle: `flat<Dtype>().data()` and `NumElements()` (an `int64`). -/
structure Tensor where
  data : Nat
  NumElements : Nat
deriving DecidableEq, Repr

/-- The launch configuration `GpuLaunchConfig` / `CudaLaunchConfig`. -/
structure LaunchConfig where
  virtual_thread_count : Int
  thread_per_block : Int
  block_count : Int
deriving DecidableEq, Repr

/-- Device limits consulted by the launch planner. -/
structure DeviceCapabilities where
  maxThreadsPerBlock : Nat
  maxBlocks : Nat
deriving DecidableEq, Repr

/-- The built-in variables of one device thread. -/
structure ThreadIdx where
  gridDim : Nat
  blockDim : Nat
  blockIdx : Nat
  threadIdx : Nat
deriving DecidableEq, Repr

/-- The loop `for (int i = start; i < count; i += delta)`, collecting the values of `i`
for which the body runs. -/
def gridStrideLoop : Nat → Nat → Nat → Int → List Nat
  | 0, _, _, _ => []
  | fuel + 1, i, delta, count =>
    if (i : Int) < count then i :: gridStrideLoop fuel (i + delta) delta count else []

/-- Modelled from the spec: `GpuGridRangeX(count)` is a TensorFlow helper that is not part
of this source file; it is the grid-stride range written out in the comment above each
kernel body, `for (int i = blockIdx.x * blockDim.x + threadIdx.x; i < N;
i += blockDim.x * gridDim.x)`. At most `count` iterations are ever needed. -/
def GpuGridRangeX (count : Int) (t : ThreadIdx) : List Nat :=
  gridStrideLoop count.toNat (t.blockIdx * t.blockDim + t.threadIdx)
    (t.blockDim * t.gridDim) count

/-! ## Kernels -/

/-- One iteration of the body of `forward`: `Z[i] = X[i] + Y[i] + (T)bias`. -/
def forwardBody {T : Type} [Add T] (Z X Y : Nat) (bias : T) (m : Mem T) (i : Nat) : Mem T :=
  Function.update m (Z + i) (m (X + i) + m (Y + i) + bias)

/-- The kernel `forward`, as run by one thread. -/
def forward {T : Type} [Add T] (cfg : LaunchConfig) (Z : Nat) (_N : Int) (X Y : Nat)
    (bias : T) (t : ThreadIdx) (m : Mem T) : Mem T :=
  (GpuGridRangeX cfg.virtual_thread_count t).foldl (forwardBody Z X Y bias) m

/-- One iteration of the body of `backward`: `grad_matrixA[i] = top_diff[i];
grad_matrixB[i] = top_diff[i];`. -/
def backwardBody {T : Type} (top_diff grad_matrixA grad_matrixB : Nat) (m : Mem T)
    (i : Nat) : Mem T :=
  let m1 := Function.update m (grad_matrixA + i) (m (top_diff + i))
  Function.update m1 (grad_matrixB + i) (m1 (top_diff + i))

/-- The kernel `backward`, as run by one thread. -/
def backward {T : Type} (cfg : LaunchConfig) (top_diff : Nat) (_N : Int)
    (grad_matrixA grad_matrixB : Nat) (t : ThreadIdx) (m : Mem T) : Mem T :=
  (GpuGridRangeX cfg.virtual_thread_count t).foldl
    (backwardBody top_diff grad_matrixA grad_matrixB) m

/-- The thread with linear id `w` of a grid of `g` blocks of `b` threads. -/
def threadOf (g b w : Nat) : ThreadIdx := ⟨g, b, w / b, w % b⟩

/-- The grid of a launch `<<<gridDim, blockDim>>>`: every thread, by linear id. -/
def gridThreads (gridDim blockDim : Nat) : List ThreadIdx :=
  (List.range (gridDim * blockDim)).map (threadOf gridDim blockDim)

/-- The given threads run the kernel one after the other, in the order of the list. -/
def runThreads {T : Type} (order : List ThreadIdx) (kernel : ThreadIdx → Mem T → Mem T)
    (m : Mem T) : Mem T :=
  order.foldl (fun acc t => kernel t acc) m

/-- Effect on memory of `kernel<<<gridDim, blockDim>>>(...)`: each thread of the grid
runs the kernel. -/
def runGrid {T : Type} (gridDim blockDim : Nat) (kernel : ThreadIdx → Mem T → Mem T)
    (m : Mem T) : Mem T :=
  runThreads (gridThreads gridDim blockDim) kernel m

/-- Every index at which some thread of the grid runs the loop body, in execution
order. -/
def visited (gridDim blockDim : Nat) (count : Int) : List Nat :=
  (gridThreads gridDim blockDim).flatMap (GpuGridRangeX count)

/-- The device-to-device `cudaMemcpy(dst, src, bytes, ...)` of elements of `size` bytes:
the source range is replicated over the destination range. -/
def memcpyEffect {T : Type} (size : Nat) (dst src bytes : Nat) (m : Mem T) : Mem T :=
  fun a => if dst ≤ a ∧ a < dst + bytes / size then m (src + (a - dst)) else m a

/-! ## Compute stream and context -/

/-- What the stream records. -/
inductive DeviceEvent where
  | kernelLaunch (block_count thread_per_block virtual_thread_count : Int)
  | memcpy (dst src bytes : Nat)
  | okQuery (result : Bool)
deriving DecidableEq, Repr

/-- A device operation, as opposed to a health query. -/
def DeviceEvent.isOperation : DeviceEvent → Bool
  | .okQuery _ => false
  | _ => true

/-- The GPU device with its compute stream: memory, a sticky failure flag, the injected
faults of the operations still to come (`true` makes the next operation fail), and the
record of what has been submitted. -/
structure GPUDevice (T : Type) where
  caps : DeviceCapabilities
  mem : Mem T
  failed : Bool
  faults : List Bool
  events : List DeviceEvent

/-- Submission of one device operation. The operation takes effect unless the stream has
already failed, the operation is rejected, or a fault is injected; in those cases the
stream is left failed. -/
def GPUDevice.submit {T : Type} (d : GPUDevice T) (ev : DeviceEvent) (rejected : Bool)
    (effect : Mem T → Mem T) : GPUDevice T :=
  let bad := d.failed || rejected || d.faults.headD false
  { caps := d.caps
    mem := if bad then d.mem else effect d.mem
    failed := bad
    faults := d.faults.tail
    events := d.events ++ [ev] }

/-- The launch `kernel<<<cfg.block_count, cfg.thread_per_block, 0, d.stream()>>>(...)`.
A grid or block dimension below one is rejected. -/
def GPUDevice.launchKernel {T : Type} (d : GPUDevice T) (cfg : LaunchConfig)
    (kernel : ThreadIdx → Mem T → Mem T) : GPUDevice T :=
  d.submit (.kernelLaunch cfg.block_count cfg.thread_per_block cfg.virtual_thread_count)
    (decide (cfg.block_count < 1) || decide (cfg.thread_per_block < 1))
    (runGrid cfg.block_count.toNat cfg.thread_per_block.toNat kernel)

/-- The call `cudaMemcpy(dst, src, bytes, cudaMemcpyDeviceToDevice)`. -/
def GPUDevice.cudaMemcpy {T : Type} (d : GPUDevice T) (size : Nat) (dst src bytes : Nat) :
    GPUDevice T :=
  d.submit (.memcpy dst src bytes) false (memcpyEffect size dst src bytes)

/-- The query `d.ok()`: whether everything submitted so far succeeded. -/
def GPUDevice.ok {T : Type} (d : GPUDevice T) : Bool × GPUDevice T :=
  (!d.failed, { d with events := d.events ++ [.okQuery (!d.failed)] })

/-- A framework status. -/
inductive Status where
  | OK
  | Internal (msg : String)
deriving DecidableEq, Repr

/-- The part of `OpKernelContext` the launchers use: the device and the status sink. -/
structure OpKernelContext (T : Type) where
  eigen_gpu_device : GPUDevice T
  reported : List Status

/-- The call `context->SetStatus(s)`. -/
def OpKernelContext.SetStatus {T : Type} (c : OpKernelContext T) (s : Status) :
    OpKernelContext T :=
  { c with reported := c.reported ++ [s] }

/-- Ceiling division. -/
def DivUp (a b : Nat) : Nat := (a + b - 1) / b

/-- Modelled from the spec: the launch planner `GetLaunchConfig(N, d)` is TensorFlow's
`GetGpuLaunchConfig`, not part of this source file. Following section 4.1 of the
specification it returns `virtual_thread_count = N` with a block size and a block count
derived from `N` and the device limits, both at least one for every `N`, zero included. -/
def GetLaunchConfig (N : Int) (caps : DeviceCapabilities) : LaunchConfig :=
  let thread_per_block := max 1 caps.maxThreadsPerBlock
  { virtual_thread_count := N
    thread_per_block := thread_per_block
    block_count := max 1 (min (DivUp N.toNat thread_per_block) caps.maxBlocks) }

/-! ## Launchers -/

namespace functor

/-- The launcher `MatrixAddFunctor<GPUDevice, Dtype>::launch`. -/
def MatrixAddFunctor.launch {T : Type} [Add T] (context : OpKernelContext T)
    (mA_ mB_ mC_ : Tensor) (bias : T) : OpKernelContext T :=
  let N : Int := toInt32 mA_.NumElements
  let d := context.eigen_gpu_device
  let cfg := GetLaunchConfig N d.caps
  let d1 := d.launchKernel cfg
    (forward cfg mC_.data (toInt32 mA_.NumElements) mA_.data mB_.data bias)
  let r := d1.ok
  let context1 : OpKernelContext T := { context with eigen_gpu_device := r.2 }
  if !r.1 then
    context1.SetStatus (Status.Internal "Failed launching MatrixAdd on GPU")
  else context1

/-- The launcher `MatrixAddGrad<GPUDevice, Dtype>::launch`; `size` is `sizeof(Dtype)`. -/
def MatrixAddGrad.launch {T : Type} (size : Nat) (context : OpKernelContext T)
    (topdiff_ grad_mA_ grad_mB_ : Tensor) : OpKernelContext T :=
  let N : Int := toInt32 topdiff_.NumElements
  let d := context.eigen_gpu_device
  let _cfg := GetLaunchConfig N d.caps
  let bytes := mulSizeT (toSizeT N) size
  let d1 := d.cudaMemcpy size grad_mA_.data topdiff_.data bytes
  let d2 := d1.cudaMemcpy size grad_mB_.data topdiff_.data bytes
  let r := d2.ok
  let context1 : OpKernelContext T := { context with eigen_gpu_device := r.2 }
  if !r.1 then
    context1.SetStatus (Status.Internal "Failed launching MatrixAddGrad on GPU")
  else context1

end functor

/-! ## Vocabulary of the statements -/

/-- The buffers of `n` elements starting at `p` and at `q` do not overlap. -/
abbrev separate (p q n : Nat) : Prop := p + n ≤ q ∨ q + n ≤ p

/-- The cell `a` lies in the buffer of `n` elements starting at `p`. -/
abbrev inBuffer (p n a : Nat) : Prop := p ≤ a ∧ a < p + n

/-- The next operation submitted to the device will not succeed: the stream has already
failed, or a fault is injected into that operation. -/
def GPUDevice.nextFails {T : Type} (d : GPUDevice T) : Bool :=
  d.failed || d.faults.headD false

/-- Every device operation in the record is directly followed by a health query. -/
def queriedAfterEachOperation : List DeviceEvent → Bool
  | [] => true
  | ev :: rest =>
    (!ev.isOperation ||
      (match rest with
        | .okQuery _ :: _ => true
        | _ => false)) && queriedAfterEachOperation rest

/-- No device operation is recorded after a health query that answered not-ok. -/
def noOperationAfterFailedQuery : List DeviceEvent → Bool
  | [] => true
  | .okQuery false :: rest => rest.all (fun ev => !ev.isOperation)
  | _ :: rest => noOperationAfterFailedQuery rest

/-- A device with the given limits and memory, a healthy stream and the given injected
faults. -/
def deviceWith {T : Type} (caps : DeviceCapabilities) (faults : List Bool) (m : Mem T) :
    GPUDevice T :=
  { caps := caps, mem := m, failed := false, faults := faults, events := [] }

/-- A context over `deviceWith`, nothing reported yet. -/
def contextWith {T : Type} (caps : DeviceCapabilities) (faults : List Bool) (m : Mem T) :
    OpKernelContext T :=
  { eigen_gpu_device := deviceWith caps faults m, reported := [] }

/-- Memory holding the given values from cell zero on, and `dflt` elsewhere. -/
def memOfList {T : Type} (dflt : T) (l : List T) : Mem T := fun a => l.getD a dflt

/-- The contents of the `n` cells starting at `p`. -/
def readBuffer {T : Type} (m : Mem T) (p n : Nat) : List T :=
  (List.range n).map (fun i => m (p + i))

/-! ## Grid-stride ranges -/

theorem mem_gridStrideLoop (delta : Nat) (count : Int) (fuel s i : Nat) :
    i ∈ gridStrideLoop fuel s delta count ↔
      ∃ k, k < fuel ∧ i = s + k * delta ∧ (i : Int) < count := by
  induction fuel generalizing s with
  | zero => simp [gridStrideLoop]
  | succ n ih =>
    unfold gridStrideLoop
    by_cases hs : (s : Int) < count
    · rw [if_pos hs, List.mem_cons, ih]
      constructor
      · rintro (rfl | ⟨k, hk, rfl, hlt⟩)
        · exact ⟨0, by omega, by simp, hs⟩
        · exact ⟨k + 1, by omega, by ring, hlt⟩
      · rintro ⟨k, hk, rfl, hlt⟩
        cases k with
        | zero => left; simp
        | succ k => right; exact ⟨k, by omega, by ring, hlt⟩
    · rw [if_neg hs]
      simp only [List.not_mem_nil, false_iff, not_exists, not_and]
      rintro k _ rfl hlt
      apply hs
      have : (s : Int) ≤ ((s + k * delta : Nat) : Int) := by
        exact_mod_cast Nat.le_add_right s (k * delta)
      omega

theorem nodup_gridStrideLoop {delta : Nat} (hd : 0 < delta) (count : Int) (fuel s : Nat) :
    (gridStrideLoop fuel s delta count).Nodup := by
  induction fuel generalizing s with
  | zero => simp [gridStrideLoop]
  | succ n ih =>
    unfold gridStrideLoop
    split
    · refine List.nodup_cons.mpr ⟨?_, ih _⟩
      rw [mem_gridStrideLoop]
      rintro ⟨k, _, hk, _⟩
      have : 0 ≤ k * delta := Nat.zero_le _
      omega
    · exact List.nodup_nil

theorem mem_GpuGridRangeX {g b w : Nat} (hw : w < g * b) (count : Int) (i : Nat) :
    i ∈ GpuGridRangeX count (threadOf g b w) ↔ (i : Int) < count ∧ i % (g * b) = w := by
  have hS : 0 < b * g := by
    rw [Nat.mul_comm]; exact Nat.lt_of_le_of_lt (Nat.zero_le _) hw
  have hstart : w / b * b + w % b = w := by
    rw [Nat.mul_comm]; exact Nat.div_add_mod w b
  unfold GpuGridRangeX threadOf
  simp only
  rw [mem_gridStrideLoop, hstart, Nat.mul_comm b g]
  constructor
  · rintro ⟨k, _, rfl, hlt⟩
    refine ⟨hlt, ?_⟩
    rw [Nat.add_mul_mod_self_right, Nat.mod_eq_of_lt hw]
  · rintro ⟨hlt, rfl⟩
    refine ⟨i / (g * b), ?_, ?_, hlt⟩
    · have h1 : i / (g * b) ≤ i := Nat.div_le_self _ _
      omega
    · rw [Nat.add_comm, Nat.mul_comm]; exact (Nat.div_add_mod i (g * b)).symm

theorem nodup_GpuGridRangeX {g b w : Nat} (hw : w < g * b) (count : Int) :
    (GpuGridRangeX count (threadOf g b w)).Nodup := by
  have hS : 0 < b * g := by
    rw [Nat.mul_comm]; exact Nat.lt_of_le_of_lt (Nat.zero_le _) hw
  exact nodup_gridStrideLoop hS _ _ _

theorem visited_eq (g b : Nat) (count : Int) :
    visited g b count =
      (List.range (g * b)).flatMap (fun w => GpuGridRangeX count (threadOf g b w)) := by
  unfold visited
  unfold gridThreads
  rw [List.flatMap_map]

theorem mem_visited {g b : Nat} (count : Int) (i : Nat) (hS : 0 < g * b) :
    i ∈ visited g b count ↔ (i : Int) < count := by
  rw [visited_eq, List.mem_flatMap]
  constructor
  · rintro ⟨w, hw, hi⟩
    exact ((mem_GpuGridRangeX (List.mem_range.mp hw) count i).mp hi).1
  · intro hlt
    have hw : i % (g * b) < g * b := Nat.mod_lt _ hS
    exact ⟨i % (g * b), List.mem_range.mpr hw, (mem_GpuGridRangeX hw count i).mpr ⟨hlt, rfl⟩⟩

theorem nodup_visited (g b : Nat) (count : Int) : (visited g b count).Nodup := by
  rw [visited_eq, List.nodup_flatMap]
  refine ⟨fun w hw => nodup_GpuGridRangeX (List.mem_range.mp hw) count, ?_⟩
  refine (List.nodup_range (g * b)).pairwise_of_forall_ne ?_
  intro w hw v hv hne
  have hw1 := List.mem_range.mp hw
  have hv1 := List.mem_range.mp hv
  intro i hi hj
  rw [mem_GpuGridRangeX hw1] at hi
  rw [mem_GpuGridRangeX hv1] at hj
  exact hne (hi.2.symm.trans hj.2)

theorem visited_perm_range {g b : Nat} (hS : 0 < g * b) (count : Int) :
    (visited g b count).Perm (List.range count.toNat) := by
  rw [List.perm_ext_iff_of_nodup (nodup_visited g b count) (List.nodup_range _)]
  intro i
  rw [mem_visited count i hS, List.mem_range]
  omega

/-! ## Effect of the kernels on memory -/

theorem foldl_flatMap_eq {α β γ : Type} (f : α → List β) (step : γ → β → γ) (l : List α)
    (m : γ) :
    (l.flatMap f).foldl step m = l.foldl (fun acc x => (f x).foldl step acc) m := by
  induction l generalizing m with
  | nil => rfl
  | cons x xs ih => simp [List.flatMap_cons, List.foldl_append, ih]

theorem runGrid_forward {T : Type} [Add T] (g b : Nat) (cfg : LaunchConfig) (Z : Nat)
    (N : Int) (X Y : Nat) (bias : T) (m : Mem T) :
    runGrid g b (forward cfg Z N X Y bias) m =
      (visited g b cfg.virtual_thread_count).foldl (forwardBody Z X Y bias) m := by
  unfold runGrid runThreads visited forward
  rw [foldl_flatMap_eq]

theorem runGrid_backward {T : Type} (g b : Nat) (cfg : LaunchConfig) (top : Nat)
    (N : Int) (A B : Nat) (m : Mem T) :
    runGrid g b (backward cfg top N A B) m =
      (visited g b cfg.virtual_thread_count).foldl (backwardBody top A B) m := by
  unfold runGrid runThreads visited backward
  rw [foldl_flatMap_eq]

theorem forwardFold_frame {T : Type} [Add T] (Z X Y : Nat) (bias : T) (l : List Nat)
    (m : Mem T) (a : Nat) (ha : ∀ i ∈ l, a ≠ Z + i) :
    l.foldl (forwardBody Z X Y bias) m a = m a := by
  induction l generalizing m with
  | nil => rfl
  | cons j l ih =>
    rw [List.foldl_cons, ih _ (fun i hi => ha i (List.mem_cons_of_mem _ hi))]
    unfold forwardBody
    exact Function.update_noteq (ha j (List.mem_cons_self _ _)) _ _

theorem forwardFold_value {T : Type} [Add T] (Z X Y : Nat) (bias : T) (l : List Nat)
    (m : Mem T) (hX : ∀ i ∈ l, ∀ j ∈ l, X + i ≠ Z + j) (hY : ∀ i ∈ l, ∀ j ∈ l, Y + i ≠ Z + j)
    (i : Nat) (hi : i ∈ l) :
    l.foldl (forwardBody Z X Y bias) m (Z + i) = m (X + i) + m (Y + i) + bias := by
  induction l generalizing m with
  | nil => simp at hi
  | cons j l ih =>
    rw [List.foldl_cons]
    have hj : j ∈ j :: l := List.mem_cons_self _ _
    by_cases hil : i ∈ l
    · have hi2 : i ∈ j :: l := List.mem_cons_of_mem _ hil
      rw [ih _ (fun a ha c hc => hX a (List.mem_cons_of_mem _ ha) c (List.mem_cons_of_mem _ hc))
        (fun a ha c hc => hY a (List.mem_cons_of_mem _ ha) c (List.mem_cons_of_mem _ hc)) hil]
      unfold forwardBody
      rw [Function.update_noteq (hX i hi2 j hj), Function.update_noteq (hY i hi2 j hj)]
    · have hij : i = j := by
        rcases List.mem_cons.mp hi with h | h
        · exact h
        · exact absurd h hil
      subst hij
      rw [forwardFold_frame]
      · unfold forwardBody
        exact Function.update_same _ _ _
      · intro c hc heq
        have : i = c := by omega
        exact hil (this ▸ hc)

theorem backwardFold_frame {T : Type} (top A B : Nat) (l : List Nat) (m : Mem T) (a : Nat)
    (hA : ∀ i ∈ l, a ≠ A + i) (hB : ∀ i ∈ l, a ≠ B + i) :
    l.foldl (backwardBody top A B) m a = m a := by
  induction l generalizing m with
  | nil => rfl
  | cons j l ih =>
    rw [List.foldl_cons, ih _ (fun i hi => hA i (List.mem_cons_of_mem _ hi))
      (fun i hi => hB i (List.mem_cons_of_mem _ hi))]
    unfold backwardBody
    rw [Function.update_noteq (hB j (List.mem_cons_self _ _)),
      Function.update_noteq (hA j (List.mem_cons_self _ _))]

theorem backwardBody_top {T : Type} (top A B : Nat) (m : Mem T) (j a : Nat)
    (hA : a ≠ A + j) (hB : a ≠ B + j) : backwardBody top A B m j a = m a := by
  unfold backwardBody
  rw [Function.update_noteq hB, Function.update_noteq hA]

theorem backwardFold_value {T : Type} (top A B : Nat) (l : List Nat) (m : Mem T)
    (hTA : ∀ i ∈ l, ∀ j ∈ l, top + i ≠ A + j) (hTB : ∀ i ∈ l, ∀ j ∈ l, top + i ≠ B + j)
    (hAB : ∀ i ∈ l, ∀ j ∈ l, A + i ≠ B + j) (i : Nat) (hi : i ∈ l) :
    l.foldl (backwardBody top A B) m (A + i) = m (top + i) ∧
      l.foldl (backwardBody top A B) m (B + i) = m (top + i) := by
  induction l generalizing m with
  | nil => simp at hi
  | cons j l ih =>
    rw [List.foldl_cons]
    have hj : j ∈ j :: l := List.mem_cons_self _ _
    by_cases hil : i ∈ l
    · have hi2 : i ∈ j :: l := List.mem_cons_of_mem _ hil
      have h := ih (backwardBody top A B m j)
        (fun a ha c hc => hTA a (List.mem_cons_of_mem _ ha) c (List.mem_cons_of_mem _ hc))
        (fun a ha c hc => hTB a (List.mem_cons_of_mem _ ha) c (List.mem_cons_of_mem _ hc))
        (fun a ha c hc => hAB a (List.mem_cons_of_mem _ ha) c (List.mem_cons_of_mem _ hc)) hil
      rw [h.1, h.2, backwardBody_top top A B m j _ (hTA i hi2 j hj) (hTB i hi2 j hj)]
      exact ⟨rfl, rfl⟩
    · have hij : i = j := by
        rcases List.mem_cons.mp hi with h | h
        · exact h
        · exact absurd h hil
      subst hij
      have hnotA : ∀ c ∈ l, A + i ≠ A + c := by
        intro c hc heq
        have : i = c := by omega
        exact hil (this ▸ hc)
      have hnotB : ∀ c ∈ l, B + i ≠ B + c := by
        intro c hc heq
        have : i = c := by omega
        exact hil (this ▸ hc)
      have hAB2 : ∀ c ∈ l, A + i ≠ B + c := fun c hc =>
        hAB i hj c (List.mem_cons_of_mem _ hc)
      have hBA2 : ∀ c ∈ l, B + i ≠ A + c := fun c hc =>
        (hAB c (List.mem_cons_of_mem _ hc) i hj).symm
      rw [backwardFold_frame top A B l _ _ hnotA hAB2,
        backwardFold_frame top A B l _ _ hBA2 hnotB]
      unfold backwardBody
      rw [Function.update_noteq (hTA i hj i hj), Function.update_same,
        Function.update_noteq (hAB i hj i hj), Function.update_same]
      exact ⟨rfl, rfl⟩

/-! ## Machine-integer facts -/

theorem toInt32_of_lt {n : Nat} (h : n < 2147483648) : toInt32 n = n := by
  unfold toInt32; omega

theorem toInt32_le_self (n : Nat) : toInt32 n ≤ n := by
  unfold toInt32; omega

theorem toInt32_eq_iff (n : Nat) : toInt32 n = n ↔ n ≤ 2147483647 := by
  unfold toInt32; omega

theorem toInt32_add_toInt32 (x y : Int) : toInt32 (toInt32 x + y) = toInt32 (x + y) := by
  unfold toInt32; omega

theorem Int32.toInt_add (a b : Int32) : (a + b).toInt = toInt32 (a.toInt + b.toInt) := rfl

theorem copyBytes_of_lt {n size : Nat} (hn : n < 2147483648) (hs : size ≤ 8) :
    mulSizeT (toSizeT (toInt32 n)) size = n * size := by
  rw [toInt32_of_lt hn]
  have h1 : toSizeT (n : Int) = n := by unfold toSizeT; omega
  rw [h1]
  unfold mulSizeT
  apply Nat.mod_eq_of_lt
  have : n * size ≤ 2147483648 * 8 := Nat.mul_le_mul (Nat.le_of_lt hn) hs
  omega

/-! ## The launch planner -/

theorem GetLaunchConfig_valid (N : Int) (caps : DeviceCapabilities) :
    (GetLaunchConfig N caps).virtual_thread_count = N ∧
      1 ≤ (GetLaunchConfig N caps).block_count ∧
      1 ≤ (GetLaunchConfig N caps).thread_per_block := by
  unfold GetLaunchConfig
  refine ⟨rfl, ?_, ?_⟩
  · exact le_max_left _ _
  · simp only
    exact_mod_cast le_max_left 1 caps.maxThreadsPerBlock

theorem GetLaunchConfig_grid_pos (N : Int) (caps : DeviceCapabilities) :
    0 < (GetLaunchConfig N caps).block_count.toNat *
      (GetLaunchConfig N caps).thread_per_block.toNat := by
  obtain ⟨_, h1, h2⟩ := GetLaunchConfig_valid N caps
  apply Nat.mul_pos <;> omega

/-! ## The launchers, unfolded -/

theorem MatrixAddFunctor_launch_eq {T : Type} [Add T] (context : OpKernelContext T)
    (mA_ mB_ mC_ : Tensor) (bias : T) :
    functor.MatrixAddFunctor.launch context mA_ mB_ mC_ bias =
      { eigen_gpu_device :=
          { caps := context.eigen_gpu_device.caps
            mem :=
              if context.eigen_gpu_device.nextFails then context.eigen_gpu_device.mem
              else
                (visited
                  (GetLaunchConfig (toInt32 mA_.NumElements)
                    context.eigen_gpu_device.caps).block_count.toNat
                  (GetLaunchConfig (toInt32 mA_.NumElements)
                    context.eigen_gpu_device.caps).thread_per_block.toNat
                  (toInt32 mA_.NumElements)).foldl
                  (forwardBody mC_.data mA_.data mB_.data bias) context.eigen_gpu_device.mem
            failed := context.eigen_gpu_device.nextFails
            faults := context.eigen_gpu_device.faults.tail
            events := context.eigen_gpu_device.events ++
              [.kernelLaunch
                (GetLaunchConfig (toInt32 mA_.NumElements)
                  context.eigen_gpu_device.caps).block_count
                (GetLaunchConfig (toInt32 mA_.NumElements)
                  context.eigen_gpu_device.caps).thread_per_block
                (toInt32 mA_.NumElements),
               .okQuery (!context.eigen_gpu_device.nextFails)] }
        reported :=
          if context.eigen_gpu_device.nextFails then
            context.reported ++ [Status.Internal "Failed launching MatrixAdd on GPU"]
          else context.reported } := by
  obtain ⟨hv, h1, h2⟩ :=
    GetLaunchConfig_valid (toInt32 mA_.NumElements) context.eigen_gpu_device.caps
  have hr1 : decide ((GetLaunchConfig (toInt32 mA_.NumElements)
      context.eigen_gpu_device.caps).block_count < 1) = false := by
    simp only [decide_eq_false_iff_not]; omega
  have hr2 : decide ((GetLaunchConfig (toInt32 mA_.NumElements)
      context.eigen_gpu_device.caps).thread_per_block < 1) = false := by
    simp only [decide_eq_false_iff_not]; omega
  unfold functor.MatrixAddFunctor.launch GPUDevice.launchKernel GPUDevice.submit GPUDevice.ok
    OpKernelContext.SetStatus GPUDevice.nextFails
  simp only [hr1, hr2, Bool.or_false, runGrid_forward, hv]
  cases context.eigen_gpu_device.failed || context.eigen_gpu_device.faults.headD false <;>
    simp

theorem MatrixAddGrad_launch_eq {T : Type} (size : Nat) (context : OpKernelContext T)
    (topdiff_ grad_mA_ grad_mB_ : Tensor) :
    functor.MatrixAddGrad.launch size context topdiff_ grad_mA_ grad_mB_ =
      { eigen_gpu_device :=
          { caps := context.eigen_gpu_device.caps
            mem :=
              if context.eigen_gpu_device.nextFails then context.eigen_gpu_device.mem
              else if context.eigen_gpu_device.faults.tail.headD false then
                memcpyEffect size grad_mA_.data topdiff_.data
                  (mulSizeT (toSizeT (toInt32 topdiff_.NumElements)) size)
                  context.eigen_gpu_device.mem
              else
                memcpyEffect size grad_mB_.data topdiff_.data
                  (mulSizeT (toSizeT (toInt32 topdiff_.NumElements)) size)
                  (memcpyEffect size grad_mA_.data topdiff_.data
                    (mulSizeT (toSizeT (toInt32 topdiff_.NumElements)) size)
                    context.eigen_gpu_device.mem)
            failed := context.eigen_gpu_device.nextFails ||
              context.eigen_gpu_device.faults.tail.headD false
            faults := context.eigen_gpu_device.faults.tail.tail
            events := context.eigen_gpu_device.events ++
              [.memcpy grad_mA_.data topdiff_.data
                (mulSizeT (toSizeT (toInt32 topdiff_.NumElements)) size),
               .memcpy grad_mB_.data topdiff_.data
                (mulSizeT (toSizeT (toInt32 topdiff_.NumElements)) size),
               .okQuery (!(context.eigen_gpu_device.nextFails ||
                  context.eigen_gpu_device.faults.tail.headD false))] }
        reported :=
          if context.eigen_gpu_device.nextFails ||
              context.eigen_gpu_device.faults.tail.headD false then
            context.reported ++ [Status.Internal "Failed launching MatrixAddGrad on GPU"]
          else context.reported } := by
  obtain ⟨⟨caps, mem, failed, faults, events⟩, reported⟩ := context
  unfold functor.MatrixAddGrad.launch GPUDevice.cudaMemcpy GPUDevice.submit GPUDevice.ok
    OpKernelContext.SetStatus GPUDevice.nextFails
  rcases faults with _ | ⟨f1, _ | ⟨f2, rest⟩⟩ <;> cases failed <;>
    (try cases f1) <;> (try cases f2) <;> simp

/-! ## Shared consequences -/

theorem sorted_gridStrideLoop {delta : Nat} (hd : 0 < delta) (count : Int) (fuel s : Nat) :
    (gridStrideLoop fuel s delta count).Pairwise (· < ·) := by
  induction fuel generalizing s with
  | zero => simp [gridStrideLoop]
  | succ n ih =>
    unfold gridStrideLoop
    split
    · refine List.pairwise_cons.mpr ⟨?_, ih _⟩
      intro a ha
      rw [mem_gridStrideLoop] at ha
      obtain ⟨k, _, hk, _⟩ := ha
      have : 0 ≤ k * delta := Nat.zero_le _
      omega
    · exact List.Pairwise.nil

theorem mem_GpuGridRangeX_exists {g b w : Nat} (hw : w < g * b) (count : Int) (i : Nat) :
    i ∈ GpuGridRangeX count (threadOf g b w) ↔
      (i : Int) < count ∧ ∃ k, i = w + k * (g * b) := by
  rw [mem_GpuGridRangeX hw]
  constructor
  · rintro ⟨hlt, rfl⟩
    refine ⟨hlt, i / (g * b), ?_⟩
    rw [Nat.add_comm, Nat.mul_comm]; exact (Nat.div_add_mod i (g * b)).symm
  · rintro ⟨hlt, k, rfl⟩
    refine ⟨hlt, ?_⟩
    rw [Nat.add_mul_mod_self_right, Nat.mod_eq_of_lt hw]

theorem not_nextFails_of_reported {l : List Status} {s : Status} {c : Bool}
    (h : (if c then l ++ [s] else l) = l) : c = false := by
  cases c with
  | false => rfl
  | true => simp at h

theorem forward_launch_value {T : Type} [Add T] (context : OpKernelContext T)
    (mA_ mB_ mC_ : Tensor) (bias : T)
    (hN : mA_.NumElements < 2147483648)
    (hA : separate mC_.data mA_.data mA_.NumElements)
    (hB : separate mC_.data mB_.data mA_.NumElements)
    (hok : context.eigen_gpu_device.nextFails = false)
    (i : Nat) (hi : i < mA_.NumElements) :
    (functor.MatrixAddFunctor.launch context mA_ mB_ mC_ bias).eigen_gpu_device.mem
        (mC_.data + i) =
      context.eigen_gpu_device.mem (mA_.data + i) +
        context.eigen_gpu_device.mem (mB_.data + i) + bias := by
  rw [MatrixAddFunctor_launch_eq]
  simp only [hok, Bool.false_eq_true, if_false]
  have hpos := GetLaunchConfig_grid_pos (toInt32 mA_.NumElements) context.eigen_gpu_device.caps
  have hmem : ∀ j, j ∈ visited
      (GetLaunchConfig (toInt32 mA_.NumElements) context.eigen_gpu_device.caps).block_count.toNat
      (GetLaunchConfig (toInt32 mA_.NumElements)
        context.eigen_gpu_device.caps).thread_per_block.toNat
      (toInt32 mA_.NumElements) ↔ j < mA_.NumElements := by
    intro j
    rw [mem_visited _ _ hpos, toInt32_of_lt hN]
    exact Nat.cast_lt
  apply forwardFold_value
  · intro a ha c hc
    rw [hmem] at ha hc
    unfold separate at hA
    omega
  · intro a ha c hc
    rw [hmem] at ha hc
    unfold separate at hB
    omega
  · exact (hmem i).mpr hi

theorem memcpyEffect_inside {T : Type} {size : Nat} (hs : 0 < size) (dst src n : Nat)
    (m : Mem T) (i : Nat) (hi : i < n) :
    memcpyEffect size dst src (n * size) m (dst + i) = m (src + i) := by
  unfold memcpyEffect
  rw [Nat.mul_div_cancel _ hs, if_pos ⟨Nat.le_add_right _ _, by omega⟩, Nat.add_sub_cancel_left]

theorem memcpyEffect_outside {T : Type} {size : Nat} (hs : 0 < size) (dst src n : Nat)
    (m : Mem T) (a : Nat) (ha : ¬ inBuffer dst n a) :
    memcpyEffect size dst src (n * size) m a = m a := by
  unfold memcpyEffect
  rw [Nat.mul_div_cancel _ hs, if_neg ha]

theorem backward_launch_value {T : Type} (size : Nat) (context : OpKernelContext T)
    (topdiff_ grad_mA_ grad_mB_ : Tensor)
    (hs0 : 0 < size) (hs : size ≤ 8)
    (hN : topdiff_.NumElements < 2147483648)
    (hA : separate grad_mA_.data topdiff_.data topdiff_.NumElements)
    (hB : separate grad_mB_.data topdiff_.data topdiff_.NumElements)
    (hAB : separate grad_mA_.data grad_mB_.data topdiff_.NumElements)
    (hok : (context.eigen_gpu_device.nextFails ||
      context.eigen_gpu_device.faults.tail.headD false) = false)
    (i : Nat) (hi : i < topdiff_.NumElements) :
    (functor.MatrixAddGrad.launch size context topdiff_ grad_mA_ grad_mB_).eigen_gpu_device.mem
        (grad_mA_.data + i) = context.eigen_gpu_device.mem (topdiff_.data + i) ∧
    (functor.MatrixAddGrad.launch size context topdiff_ grad_mA_ grad_mB_).eigen_gpu_device.mem
        (grad_mB_.data + i) = context.eigen_gpu_device.mem (topdiff_.data + i) := by
  rw [MatrixAddGrad_launch_eq]
  rw [Bool.or_eq_false_iff] at hok
  simp only [hok.1, hok.2, Bool.false_eq_true, if_false, copyBytes_of_lt hN hs]
  unfold separate at hA hB hAB
  constructor
  · rw [memcpyEffect_outside hs0 _ _ _ _ _ (by unfold inBuffer; omega),
      memcpyEffect_inside hs0 _ _ _ _ _ hi]
  · rw [memcpyEffect_inside hs0 _ _ _ _ _ hi,
      memcpyEffect_outside hs0 _ _ _ _ _ (by unfold inBuffer; omega)]

/-! ## Independence of the thread schedule and of the index width -/

theorem forwardFold_congr {T : Type} [Add T] (Z X Y : Nat) (bias : T) (l l2 : List Nat)
    (m : Mem T) (hX : ∀ i ∈ l, ∀ j ∈ l, X + i ≠ Z + j) (hY : ∀ i ∈ l, ∀ j ∈ l, Y + i ≠ Z + j)
    (hmem : ∀ i, i ∈ l2 ↔ i ∈ l) :
    l2.foldl (forwardBody Z X Y bias) m = l.foldl (forwardBody Z X Y bias) m := by
  funext a
  by_cases ha : ∃ i, i ∈ l ∧ a = Z + i
  · obtain ⟨i, hi, rfl⟩ := ha
    rw [forwardFold_value Z X Y bias l m hX hY i hi,
      forwardFold_value Z X Y bias l2 m
        (fun x hx y hy => hX x ((hmem x).mp hx) y ((hmem y).mp hy))
        (fun x hx y hy => hY x ((hmem x).mp hx) y ((hmem y).mp hy)) i ((hmem i).mpr hi)]
  · have h1 : ∀ i ∈ l, a ≠ Z + i := fun i hi heq => ha ⟨i, hi, heq⟩
    have h2 : ∀ i ∈ l2, a ≠ Z + i := fun i hi heq => ha ⟨i, (hmem i).mp hi, heq⟩
    rw [forwardFold_frame Z X Y bias l m a h1, forwardFold_frame Z X Y bias l2 m a h2]

/-- The sequential order in which `runGrid` runs the threads is immaterial: on buffers of
`n` elements with the output apart from the inputs, the threads of the grid run in any
other order leave the same memory. -/
theorem forward_schedule_independent {T : Type} [Add T] (g b n : Nat) (cfg : LaunchConfig)
    (Z X Y : Nat) (N : Int) (bias : T) (m : Mem T) (order : List ThreadIdx)
    (hS : 0 < g * b) (hcfg : cfg.virtual_thread_count = n)
    (hX : separate Z X n) (hY : separate Z Y n)
    (horder : order.Perm (gridThreads g b)) :
    runThreads order (forward cfg Z N X Y bias) m =
      runGrid g b (forward cfg Z N X Y bias) m := by
  have hmem : ∀ j, j ∈ visited g b n ↔ j < n := by
    intro j
    rw [mem_visited _ _ hS]
    exact Nat.cast_lt
  rw [runGrid_forward, hcfg]
  have hleft : runThreads order (forward cfg Z N X Y bias) m =
      (order.flatMap (GpuGridRangeX n)).foldl (forwardBody Z X Y bias) m := by
    unfold runThreads forward
    rw [foldl_flatMap_eq, hcfg]
  rw [hleft]
  unfold separate at hX hY
  apply forwardFold_congr
  · intro x hx y hy
    rw [hmem] at hx hy
    omega
  · intro x hx y hy
    rw [hmem] at hx hy
    omega
  · intro i
    unfold visited
    simp only [List.mem_flatMap]
    constructor
    · rintro ⟨t, ht, hi⟩
      exact ⟨t, horder.mem_iff.mp ht, hi⟩
    · rintro ⟨t, ht, hi⟩
      exact ⟨t, horder.mem_iff.mpr ht, hi⟩

/-- The loop index is an `int` in the source and a natural number here. When
`count + gridDim * blockDim` does not exceed `2^31`, every value the index takes, the one
that ends the loop included, is below `2^31`, so the two coincide. -/
theorem gridStride_index_fits_int {g b w : Nat} (hw : w < g * b) (count : Int)
    (hfit : count + ((g * b : Nat) : Int) ≤ 2147483648) (i : Nat)
    (hi : i ∈ GpuGridRangeX count (threadOf g b w)) :
    ((i + g * b : Nat) : Int) < 2147483648 := by
  have h := ((mem_GpuGridRangeX hw count i).mp hi).1
  push_cast at hfit ⊢
  omega

/-! ## Claims -/

/-- C1: after `MatrixAddFunctor::launch` has run on buffers of `N` elements (with `N`
an `int`, the output not overlapping the inputs) and reported no failure, every output
element is `Z[i] = X[i] + Y[i] + bias`, whatever the element type and its addition. -/
theorem MatrixAddFunctor_launch_computes_sum {T : Type} [Add T]
    (context : OpKernelContext T) (mA_ mB_ mC_ : Tensor) (bias : T)
    (hN : mA_.NumElements < 2147483648)
    (hA : separate mC_.data mA_.data mA_.NumElements)
    (hB : separate mC_.data mB_.data mA_.NumElements)
    (hok : (functor.MatrixAddFunctor.launch context mA_ mB_ mC_ bias).reported =
      context.reported) :
    ∀ i, i < mA_.NumElements →
      (functor.MatrixAddFunctor.launch context mA_ mB_ mC_ bias).eigen_gpu_device.mem
          (mC_.data + i) =
        context.eigen_gpu_device.mem (mA_.data + i) +
          context.eigen_gpu_device.mem (mB_.data + i) + bias := by
  intro i hi
  rw [MatrixAddFunctor_launch_eq] at hok
  exact forward_launch_value context mA_ mB_ mC_ bias hN hA hB
    (not_nextFails_of_reported hok) i hi

/-- C1, concrete scenario: A = [1,2,3], B = [10,20,30], bias = 5 on `int` gives
Z = [16,27,38], on a grid of two threads (fewer threads than elements). -/
theorem MatrixAddFunctor_launch_computes_sum_witness :
    (∀ i, i < 3 →
      (functor.MatrixAddFunctor.launch
          (contextWith ⟨1, 2⟩ []
            (memOfList (Int32.ofInt 0) ([1, 2, 3, 10, 20, 30, 0, 0, 0].map Int32.ofInt)))
          ⟨0, 3⟩ ⟨3, 3⟩ ⟨6, 3⟩ (Int32.ofInt 5)).eigen_gpu_device.mem (6 + i) =
        memOfList (Int32.ofInt 0) ([1, 2, 3, 10, 20, 30, 0, 0, 0].map Int32.ofInt) (0 + i) +
          memOfList (Int32.ofInt 0) ([1, 2, 3, 10, 20, 30, 0, 0, 0].map Int32.ofInt) (3 + i) +
          Int32.ofInt 5) ∧
    readBuffer
      (functor.MatrixAddFunctor.launch
          (contextWith ⟨1, 2⟩ []
            (memOfList (Int32.ofInt 0) ([1, 2, 3, 10, 20, 30, 0, 0, 0].map Int32.ofInt)))
          ⟨0, 3⟩ ⟨3, 3⟩ ⟨6, 3⟩ (Int32.ofInt 5)).eigen_gpu_device.mem 6 3 =
      [16, 27, 38].map Int32.ofInt :=
  ⟨MatrixAddFunctor_launch_computes_sum
      (contextWith ⟨1, 2⟩ []
        (memOfList (Int32.ofInt 0) ([1, 2, 3, 10, 20, 30, 0, 0, 0].map Int32.ofInt)))
      ⟨0, 3⟩ ⟨3, 3⟩ ⟨6, 3⟩ (Int32.ofInt 5) (by decide) (by decide) (by decide) (by decide),
    by decide⟩

/-- C2: after `MatrixAddGrad::launch` has run on a gradient of `N` elements (pairwise
non-overlapping buffers) and reported no failure, `gradA[i] = topGrad[i]` and
`gradB[i] = topGrad[i]` for every `i < N`, whatever the outputs held before; nothing but
the upstream gradient enters the result. -/
theorem MatrixAddGrad_launch_passthrough {T : Type} (size : Nat)
    (context : OpKernelContext T) (topdiff_ grad_mA_ grad_mB_ : Tensor)
    (hs0 : 0 < size) (hs : size ≤ 8)
    (hN : topdiff_.NumElements < 2147483648)
    (hA : separate grad_mA_.data topdiff_.data topdiff_.NumElements)
    (hB : separate grad_mB_.data topdiff_.data topdiff_.NumElements)
    (hAB : separate grad_mA_.data grad_mB_.data topdiff_.NumElements)
    (hok : (functor.MatrixAddGrad.launch size context topdiff_ grad_mA_ grad_mB_).reported =
      context.reported) :
    ∀ i, i < topdiff_.NumElements →
      (functor.MatrixAddGrad.launch size context topdiff_ grad_mA_
          grad_mB_).eigen_gpu_device.mem (grad_mA_.data + i) =
        context.eigen_gpu_device.mem (topdiff_.data + i) ∧
      (functor.MatrixAddGrad.launch size context topdiff_ grad_mA_
          grad_mB_).eigen_gpu_device.mem (grad_mB_.data + i) =
        context.eigen_gpu_device.mem (topdiff_.data + i) := by
  intro i hi
  rw [MatrixAddGrad_launch_eq] at hok
  exact backward_launch_value size context topdiff_ grad_mA_ grad_mB_ hs0 hs hN hA hB hAB
    (not_nextFails_of_reported hok) i hi

/-- C2, concrete scenario: topGrad = [1.0, -2.0, 3.5] as binary32 words
(0x3F800000, 0xC0000000, 0x40600000) is replicated into gradA and gradB, over outputs
that held other values before. -/
theorem MatrixAddGrad_launch_passthrough_witness :
    (∀ i, i < 3 →
      (functor.MatrixAddGrad.launch 4
          (contextWith ⟨2, 2⟩ []
            (memOfList 0 [1065353216, 3221225472, 1080033280, 7, 7, 7, 9, 9, 9]))
          ⟨0, 3⟩ ⟨3, 3⟩ ⟨6, 3⟩).eigen_gpu_device.mem (3 + i) =
        memOfList 0 [1065353216, 3221225472, 1080033280, 7, 7, 7, 9, 9, 9] (0 + i) ∧
      (functor.MatrixAddGrad.launch 4
          (contextWith ⟨2, 2⟩ []
            (memOfList 0 [1065353216, 3221225472, 1080033280, 7, 7, 7, 9, 9, 9]))
          ⟨0, 3⟩ ⟨3, 3⟩ ⟨6, 3⟩).eigen_gpu_device.mem (6 + i) =
        memOfList 0 [1065353216, 3221225472, 1080033280, 7, 7, 7, 9, 9, 9] (0 + i)) ∧
    readBuffer
      (functor.MatrixAddGrad.launch 4
          (contextWith ⟨2, 2⟩ []
            (memOfList 0 [1065353216, 3221225472, 1080033280, 7, 7, 7, 9, 9, 9]))
          ⟨0, 3⟩ ⟨3, 3⟩ ⟨6, 3⟩).eigen_gpu_device.mem 0 9 =
      [1065353216, 3221225472, 1080033280, 1065353216, 3221225472, 1080033280,
        1065353216, 3221225472, 1080033280] :=
  ⟨MatrixAddGrad_launch_passthrough 4
      (contextWith ⟨2, 2⟩ []
        (memOfList 0 [1065353216, 3221225472, 1080033280, 7, 7, 7, 9, 9, 9]))
      ⟨0, 3⟩ ⟨3, 3⟩ ⟨6, 3⟩ (by decide) (by decide) (by decide) (by decide) (by decide)
      (by decide) (by decide),
    by decide⟩

/-- C3: grid-stride coverage. For every `N` and every grid of `block_count >= 1` blocks
of `thread_per_block >= 1` threads (stride `S = block_count * thread_per_block`, also when
`S < N`): worker `w` visits, in increasing order, exactly the indices `w, w + S, w + 2S, ...`
below `N`; two different workers visit disjoint indices; all visits together are a
rearrangement of `0, 1, ..., N - 1`, so each index below `N` is visited once and none at or
above `N`; and the forward launch performs one store per visit. -/
theorem grid_stride_coverage {T : Type} [Add T] (block_count thread_per_block N : Nat)
    (hg : 1 ≤ block_count) (hb : 1 ≤ thread_per_block) :
    (∀ w, w < block_count * thread_per_block →
      (GpuGridRangeX N (threadOf block_count thread_per_block w)).Pairwise (· < ·) ∧
      ∀ i, i ∈ GpuGridRangeX N (threadOf block_count thread_per_block w) ↔
        i < N ∧ ∃ k, i = w + k * (block_count * thread_per_block)) ∧
    (∀ w v, w < block_count * thread_per_block → v < block_count * thread_per_block →
      w ≠ v →
      ∀ i, i ∈ GpuGridRangeX N (threadOf block_count thread_per_block w) →
        i ∉ GpuGridRangeX N (threadOf block_count thread_per_block v)) ∧
    (visited block_count thread_per_block N).Perm (List.range N) ∧
    (∀ (cfg : LaunchConfig) (Z X Y : Nat) (n : Int) (bias : T) (m : Mem T),
      cfg.virtual_thread_count = N →
      runGrid block_count thread_per_block (forward cfg Z n X Y bias) m =
        (visited block_count thread_per_block N).foldl (forwardBody Z X Y bias) m) := by
  have hS : 0 < block_count * thread_per_block := Nat.mul_pos hg hb
  refine ⟨?_, ?_, ?_, ?_⟩
  · intro w hw
    refine ⟨sorted_gridStrideLoop (by rw [Nat.mul_comm]; exact hS) _ _ _, ?_⟩
    intro i
    rw [mem_GpuGridRangeX_exists hw, Nat.cast_lt]
  · intro w v hw hv hne i hi hj
    rw [mem_GpuGridRangeX hw] at hi
    rw [mem_GpuGridRangeX hv] at hj
    exact hne (hi.2.symm.trans hj.2)
  · simpa using visited_perm_range hS (N : Int)
  · intro cfg Z X Y n bias m hcfg
    rw [runGrid_forward, hcfg]

/-- C3, instance: three blocks of two threads over ten elements (stride 6 < 10). -/
theorem grid_stride_coverage_witness :
    (1 ≤ 3 ∧ 1 ≤ 2) ∧
    GpuGridRangeX 10 (threadOf 3 2 1) = [1, 7] ∧
    visited 3 2 10 = [0, 6, 1, 7, 2, 8, 3, 9, 4, 5] ∧
    (visited 3 2 10).Perm (List.range 10) :=
  ⟨by decide, by decide, by decide,
    (@grid_stride_coverage Int32 inferInstance 3 2 10 (by decide) (by decide)).2.2.1⟩

/-- C4: in both launchers the health query is the last thing recorded on the stream,
and the context receives an error exactly when that query answers not-ok: then exactly one
`Internal` status with the tag of the failing operation is appended to what had been
reported; when the device is ok the reported statuses are unchanged. -/
theorem status_reported_iff_device_not_ok {T : Type} [Add T] (size : Nat)
    (context : OpKernelContext T) (mA_ mB_ mC_ : Tensor) (bias : T)
    (topdiff_ grad_mA_ grad_mB_ : Tensor) :
    ((functor.MatrixAddFunctor.launch context mA_ mB_ mC_ bias).eigen_gpu_device.events.getLast?
        = some (.okQuery
          (!(functor.MatrixAddFunctor.launch context mA_ mB_ mC_
            bias).eigen_gpu_device.failed)) ∧
      (functor.MatrixAddFunctor.launch context mA_ mB_ mC_ bias).reported =
        if (functor.MatrixAddFunctor.launch context mA_ mB_ mC_ bias).eigen_gpu_device.failed
        then context.reported ++ [Status.Internal "Failed launching MatrixAdd on GPU"]
        else context.reported) ∧
    ((functor.MatrixAddGrad.launch size context topdiff_ grad_mA_
          grad_mB_).eigen_gpu_device.events.getLast?
        = some (.okQuery
          (!(functor.MatrixAddGrad.launch size context topdiff_ grad_mA_
            grad_mB_).eigen_gpu_device.failed)) ∧
      (functor.MatrixAddGrad.launch size context topdiff_ grad_mA_ grad_mB_).reported =
        if (functor.MatrixAddGrad.launch size context topdiff_ grad_mA_
          grad_mB_).eigen_gpu_device.failed
        then context.reported ++ [Status.Internal "Failed launching MatrixAddGrad on GPU"]
        else context.reported) := by
  rw [MatrixAddFunctor_launch_eq, MatrixAddGrad_launch_eq]
  refine ⟨⟨?_, rfl⟩, ⟨?_, rfl⟩⟩
  · simp [List.getLast?_append]
  · simp [List.getLast?_append]

/-- C5, refuted as stated: the first device-to-device copy of a backward call fails, yet
the second copy is issued right after it, with no health query in between; the only query
comes after both copies. -/
theorem backward_second_copy_without_query :
    (functor.MatrixAddGrad.launch 4
        (contextWith ⟨2, 2⟩ [true] (memOfList (0 : Nat) [1, 2, 3, 7, 7, 7, 9, 9, 9]))
        ⟨0, 3⟩ ⟨3, 3⟩ ⟨6, 3⟩).eigen_gpu_device.events =
      [.memcpy 3 0 12, .memcpy 6 0 12, .okQuery false] ∧
    queriedAfterEachOperation
      (functor.MatrixAddGrad.launch 4
        (contextWith ⟨2, 2⟩ [true] (memOfList (0 : Nat) [1, 2, 3, 7, 7, 7, 9, 9, 9]))
        ⟨0, 3⟩ ⟨3, 3⟩ ⟨6, 3⟩).eigen_gpu_device.events = false := by
  decide

/-- C5, amended: each call queries the device health exactly once, after all the device
operations it issues (the one kernel launch in forward; the two copies in backward, issued
back to back), and records no device operation after that query. -/
theorem health_queried_once_after_all_operations {T : Type} [Add T] (size : Nat)
    (context : OpKernelContext T) (mA_ mB_ mC_ : Tensor) (bias : T)
    (topdiff_ grad_mA_ grad_mB_ : Tensor) :
    ((functor.MatrixAddFunctor.launch context mA_ mB_ mC_ bias).eigen_gpu_device.events =
      context.eigen_gpu_device.events ++
        [.kernelLaunch
          (GetLaunchConfig (toInt32 mA_.NumElements) context.eigen_gpu_device.caps).block_count
          (GetLaunchConfig (toInt32 mA_.NumElements)
            context.eigen_gpu_device.caps).thread_per_block
          (toInt32 mA_.NumElements),
         .okQuery
          (!(functor.MatrixAddFunctor.launch context mA_ mB_ mC_
            bias).eigen_gpu_device.failed)]) ∧
    ((functor.MatrixAddGrad.launch size context topdiff_ grad_mA_
        grad_mB_).eigen_gpu_device.events =
      context.eigen_gpu_device.events ++
        [.memcpy grad_mA_.data topdiff_.data
          (mulSizeT (toSizeT (toInt32 topdiff_.NumElements)) size),
         .memcpy grad_mB_.data topdiff_.data
          (mulSizeT (toSizeT (toInt32 topdiff_.NumElements)) size),
         .okQuery
          (!(functor.MatrixAddGrad.launch size context topdiff_ grad_mA_
            grad_mB_).eigen_gpu_device.failed)]) := by
  rw [MatrixAddFunctor_launch_eq, MatrixAddGrad_launch_eq]
  exact ⟨rfl, rfl⟩

/-! ## Further shared facts -/

theorem visited_zero {g b : Nat} (hS : 0 < g * b) : visited g b 0 = [] := by
  have h := visited_perm_range hS 0
  simpa using h

theorem memcpyEffect_zero {T : Type} (size dst src : Nat) (m : Mem T) :
    memcpyEffect size dst src 0 m = m := by
  funext a
  unfold memcpyEffect
  simp

theorem forward_launch_frame {T : Type} [Add T] (context : OpKernelContext T)
    (mA_ mB_ mC_ : Tensor) (bias : T) (a : Nat)
    (ha : ¬ inBuffer mC_.data mA_.NumElements a) :
    (functor.MatrixAddFunctor.launch context mA_ mB_ mC_ bias).eigen_gpu_device.mem a =
      context.eigen_gpu_device.mem a := by
  rw [MatrixAddFunctor_launch_eq]
  simp only
  split
  · rfl
  · apply forwardFold_frame
    intro i hi heq
    rw [mem_visited _ _ (GetLaunchConfig_grid_pos _ _)] at hi
    have h1 := toInt32_le_self mA_.NumElements
    apply ha
    unfold inBuffer
    omega

theorem backward_launch_frame {T : Type} (size : Nat) (context : OpKernelContext T)
    (topdiff_ grad_mA_ grad_mB_ : Tensor) (hs0 : 0 < size) (hs : size ≤ 8)
    (hN : topdiff_.NumElements < 2147483648) (a : Nat)
    (hA : ¬ inBuffer grad_mA_.data topdiff_.NumElements a)
    (hB : ¬ inBuffer grad_mB_.data topdiff_.NumElements a) :
    (functor.MatrixAddGrad.launch size context topdiff_ grad_mA_ grad_mB_).eigen_gpu_device.mem
        a = context.eigen_gpu_device.mem a := by
  rw [MatrixAddGrad_launch_eq]
  simp only [copyBytes_of_lt hN hs]
  split
  · rfl
  · split
    · exact memcpyEffect_outside hs0 _ _ _ _ _ hA
    · rw [memcpyEffect_outside hs0 _ _ _ _ _ hB, memcpyEffect_outside hs0 _ _ _ _ _ hA]

/-! ## Claims, continued -/

/-- C6: on empty tensors (`N = 0`) both launchers, run on a healthy device with no
injected fault, report no failure and leave the stream healthy; the planner returns a
configuration with `virtual_thread_count = 0` and at least one block of at least one
thread; and the whole device memory, output buffers included, is left as it was. -/
theorem empty_tensors_are_a_no_op {T : Type} [Add T] (size : Nat)
    (context : OpKernelContext T) (mA_ mB_ mC_ : Tensor) (bias : T)
    (topdiff_ grad_mA_ grad_mB_ : Tensor)
    (hfwd : mA_.NumElements = 0) (hbwd : topdiff_.NumElements = 0)
    (hhealthy : context.eigen_gpu_device.failed = false)
    (hfaults : context.eigen_gpu_device.faults = []) :
    ((functor.MatrixAddFunctor.launch context mA_ mB_ mC_ bias).reported = context.reported ∧
      (functor.MatrixAddFunctor.launch context mA_ mB_ mC_ bias).eigen_gpu_device.failed
        = false ∧
      (functor.MatrixAddFunctor.launch context mA_ mB_ mC_ bias).eigen_gpu_device.mem =
        context.eigen_gpu_device.mem) ∧
    ((GetLaunchConfig (toInt32 0) context.eigen_gpu_device.caps).virtual_thread_count = 0 ∧
      1 ≤ (GetLaunchConfig (toInt32 0) context.eigen_gpu_device.caps).block_count ∧
      1 ≤ (GetLaunchConfig (toInt32 0) context.eigen_gpu_device.caps).thread_per_block) ∧
    ((functor.MatrixAddGrad.launch size context topdiff_ grad_mA_ grad_mB_).reported =
        context.reported ∧
      (functor.MatrixAddGrad.launch size context topdiff_ grad_mA_
        grad_mB_).eigen_gpu_device.failed = false ∧
      (functor.MatrixAddGrad.launch size context topdiff_ grad_mA_
        grad_mB_).eigen_gpu_device.mem = context.eigen_gpu_device.mem) := by
  have h0 : toInt32 ((0 : Nat) : Int) = 0 := by decide
  have hnf : context.eigen_gpu_device.nextFails = false := by
    unfold GPUDevice.nextFails; rw [hhealthy, hfaults]; rfl
  have hcopy : mulSizeT (toSizeT 0) size = 0 := by
    unfold mulSizeT toSizeT; simp
  refine ⟨?_, ?_, ?_⟩
  · rw [MatrixAddFunctor_launch_eq, hfwd, h0]
    simp only [hnf, Bool.false_eq_true, if_false, true_and]
    have hpos := GetLaunchConfig_grid_pos (toInt32 ((0 : Nat) : Int))
      context.eigen_gpu_device.caps
    rw [h0] at hpos
    rw [visited_zero hpos]
    rfl
  · have h := GetLaunchConfig_valid (toInt32 0) context.eigen_gpu_device.caps
    exact ⟨by rw [h.1]; decide, h.2.1, h.2.2⟩
  · rw [MatrixAddGrad_launch_eq, hbwd, h0]
    simp only [hnf, hfaults, hcopy, memcpyEffect_zero, List.tail_nil, List.headD_nil,
      Bool.or_false, Bool.false_eq_true, if_false, and_self]

/-- C6, instance: both launchers on empty tensors over a healthy device. -/
theorem empty_tensors_are_a_no_op_witness :
    (functor.MatrixAddFunctor.launch
        (contextWith ⟨2, 2⟩ [] (memOfList (Int32.ofInt 0) ([4, 5, 6].map Int32.ofInt)))
        ⟨0, 0⟩ ⟨1, 0⟩ ⟨2, 0⟩ (Int32.ofInt 5)).reported = [] ∧
    (functor.MatrixAddFunctor.launch
        (contextWith ⟨2, 2⟩ [] (memOfList (Int32.ofInt 0) ([4, 5, 6].map Int32.ofInt)))
        ⟨0, 0⟩ ⟨1, 0⟩ ⟨2, 0⟩ (Int32.ofInt 5)).eigen_gpu_device.events =
      [.kernelLaunch 1 2 0, .okQuery true] ∧
    (functor.MatrixAddGrad.launch 4
        (contextWith ⟨2, 2⟩ [] (memOfList (Int32.ofInt 0) ([4, 5, 6].map Int32.ofInt)))
        ⟨0, 0⟩ ⟨1, 0⟩ ⟨2, 0⟩).eigen_gpu_device.mem =
      memOfList (Int32.ofInt 0) ([4, 5, 6].map Int32.ofInt) :=
  ⟨(empty_tensors_are_a_no_op 4
      (contextWith ⟨2, 2⟩ [] (memOfList (Int32.ofInt 0) ([4, 5, 6].map Int32.ofInt)))
      ⟨0, 0⟩ ⟨1, 0⟩ ⟨2, 0⟩ (Int32.ofInt 5) ⟨0, 0⟩ ⟨1, 0⟩ ⟨2, 0⟩ rfl rfl rfl rfl).1.1,
    by decide,
    (empty_tensors_are_a_no_op 4
      (contextWith ⟨2, 2⟩ [] (memOfList (Int32.ofInt 0) ([4, 5, 6].map Int32.ofInt)))
      ⟨0, 0⟩ ⟨1, 0⟩ ⟨2, 0⟩ (Int32.ofInt 5) ⟨0, 0⟩ ⟨1, 0⟩ ⟨2, 0⟩ rfl rfl rfl rfl).2.2.2.2⟩

/-! ## The backward kernel against the two copies -/

theorem backward_kernel_mem {T : Type} {size g b : Nat} (hs0 : 0 < size) (hS : 0 < g * b)
    (top A B n : Nat) (m : Mem T)
    (hA : separate A top n) (hB : separate B top n) (hAB : separate A B n) :
    (visited g b n).foldl (backwardBody top A B) m =
      memcpyEffect size B top (n * size) (memcpyEffect size A top (n * size) m) := by
  have hmem : ∀ j, j ∈ visited g b n ↔ j < n := by
    intro j
    rw [mem_visited _ _ hS]
    exact Nat.cast_lt
  unfold separate at hA hB hAB
  have hval : ∀ i, i < n →
      (visited g b n).foldl (backwardBody top A B) m (A + i) = m (top + i) ∧
      (visited g b n).foldl (backwardBody top A B) m (B + i) = m (top + i) := by
    intro i hi
    apply backwardFold_value
    · intro x hx y hy
      rw [hmem] at hx hy
      omega
    · intro x hx y hy
      rw [hmem] at hx hy
      omega
    · intro x hx y hy
      rw [hmem] at hx hy
      omega
    · exact (hmem i).mpr hi
  funext a
  by_cases hBin : inBuffer B n a
  · obtain ⟨i, rfl⟩ : ∃ i, a = B + i := ⟨a - B, by unfold inBuffer at hBin; omega⟩
    have hi : i < n := by unfold inBuffer at hBin; omega
    rw [(hval i hi).2, memcpyEffect_inside hs0 _ _ _ _ _ hi,
      memcpyEffect_outside hs0 _ _ _ _ _ (by unfold inBuffer; omega)]
  · rw [memcpyEffect_outside hs0 _ _ _ _ _ hBin]
    by_cases hAin : inBuffer A n a
    · obtain ⟨i, rfl⟩ : ∃ i, a = A + i := ⟨a - A, by unfold inBuffer at hAin; omega⟩
      have hi : i < n := by unfold inBuffer at hAin; omega
      rw [(hval i hi).1, memcpyEffect_inside hs0 _ _ _ _ _ hi]
    · rw [memcpyEffect_outside hs0 _ _ _ _ _ hAin]
      apply backwardFold_frame
      · intro i hi heq
        rw [hmem] at hi
        apply hAin
        unfold inBuffer
        omega
      · intro i hi heq
        rw [hmem] at hi
        apply hBin
        unfold inBuffer
        omega

/-! ## Claims, concluded -/

/-- C7: the two realizations of the backward pass agree. On a healthy device, for a
gradient of `N` elements in pairwise non-overlapping buffers, launching the `backward`
kernel with any configuration of at least one block of at least one thread and
`virtual_thread_count = N` leaves the device memory, hence gradA and gradB, exactly as the
two copies of `N * sizeof(T)` bytes of `MatrixAddGrad::launch` leave it. -/
theorem backward_kernel_equals_copies {T : Type} (size : Nat)
    (context : OpKernelContext T) (topdiff_ grad_mA_ grad_mB_ : Tensor) (cfg : LaunchConfig)
    (hs0 : 0 < size) (hs : size ≤ 8)
    (hN : topdiff_.NumElements < 2147483648)
    (hA : separate grad_mA_.data topdiff_.data topdiff_.NumElements)
    (hB : separate grad_mB_.data topdiff_.data topdiff_.NumElements)
    (hAB : separate grad_mA_.data grad_mB_.data topdiff_.NumElements)
    (hcfg : cfg.virtual_thread_count = toInt32 topdiff_.NumElements)
    (hg : 1 ≤ cfg.block_count) (hb : 1 ≤ cfg.thread_per_block)
    (hhealthy : context.eigen_gpu_device.failed = false)
    (hfaults : context.eigen_gpu_device.faults = []) :
    (context.eigen_gpu_device.launchKernel cfg
        (backward cfg topdiff_.data (toInt32 topdiff_.NumElements) grad_mA_.data
          grad_mB_.data)).mem =
      (functor.MatrixAddGrad.launch size context topdiff_ grad_mA_
        grad_mB_).eigen_gpu_device.mem := by
  have hnf : context.eigen_gpu_device.nextFails = false := by
    unfold GPUDevice.nextFails; rw [hhealthy, hfaults]; rfl
  have hr1 : decide (cfg.block_count < 1) = false := by
    simp only [decide_eq_false_iff_not]; omega
  have hr2 : decide (cfg.thread_per_block < 1) = false := by
    simp only [decide_eq_false_iff_not]; omega
  have hS : 0 < cfg.block_count.toNat * cfg.thread_per_block.toNat := by
    apply Nat.mul_pos <;> omega
  rw [MatrixAddGrad_launch_eq]
  unfold GPUDevice.launchKernel GPUDevice.submit
  simp only [copyBytes_of_lt hN hs]
  simp only [hnf, hhealthy, hfaults, hr1, hr2, List.tail_nil, List.headD_nil, Bool.or_false,
    Bool.false_eq_true, if_false, runGrid_backward, hcfg, toInt32_of_lt hN]
  exact backward_kernel_mem hs0 hS _ _ _ _ _ hA hB hAB

/-- C7, instance: the kernel on a grid of two threads against the two 12-byte copies,
for topGrad = [1.0, -2.0, 3.5] as binary32 words. -/
theorem backward_kernel_equals_copies_witness :
    readBuffer
      ((contextWith ⟨1, 2⟩ []
          (memOfList 0 [1065353216, 3221225472, 1080033280, 7, 7, 7, 9, 9, 9])
        ).eigen_gpu_device.launchKernel ⟨3, 1, 2⟩
        (backward ⟨3, 1, 2⟩ 0 3 3 6)).mem 0 9 =
      [1065353216, 3221225472, 1080033280, 1065353216, 3221225472, 1080033280,
        1065353216, 3221225472, 1080033280] ∧
    ((contextWith ⟨1, 2⟩ []
          (memOfList 0 [1065353216, 3221225472, 1080033280, 7, 7, 7, 9, 9, 9])
        ).eigen_gpu_device.launchKernel ⟨3, 1, 2⟩
        (backward ⟨3, 1, 2⟩ 0 (toInt32 ((3 : Nat) : Int)) 3 6)).mem =
      (functor.MatrixAddGrad.launch 4
        (contextWith ⟨1, 2⟩ []
          (memOfList 0 [1065353216, 3221225472, 1080033280, 7, 7, 7, 9, 9, 9]))
        ⟨0, 3⟩ ⟨3, 3⟩ ⟨6, 3⟩).eigen_gpu_device.mem :=
  ⟨by decide,
    backward_kernel_equals_copies 4
      (contextWith ⟨1, 2⟩ []
        (memOfList 0 [1065353216, 3221225472, 1080033280, 7, 7, 7, 9, 9, 9]))
      ⟨0, 3⟩ ⟨3, 3⟩ ⟨6, 3⟩ ⟨3, 1, 2⟩ (by decide) (by decide) (by decide) (by decide)
      (by decide) (by decide) (by decide) (by decide) (by decide) rfl rfl⟩

theorem length_visited {g b : Nat} (hS : 0 < g * b) (count : Int) :
    (visited g b count).length = count.toNat := by
  rw [(visited_perm_range hS count).length_eq, List.length_range]

theorem toInt32_range (x : Int) : -2147483648 ≤ toInt32 x ∧ toInt32 x < 2147483648 := by
  unfold toInt32; omega

theorem toSizeT_of_nonneg {x : Int} (h0 : 0 ≤ x) (h1 : x < 2147483648) :
    toSizeT x = x.toNat := by
  unfold toSizeT; omega

theorem toSizeT_of_neg {x : Int} (h0 : x < 0) (h1 : -2147483648 ≤ x) :
    toSizeT x = 18446744073709551616 - (-x).toNat := by
  unfold toSizeT; omega

theorem copyBytes_eq_iff {n size : Nat} (hs0 : 0 < size) (hs : size ≤ 8)
    (hfit : n * size < 9223372036854775808) :
    mulSizeT (toSizeT (toInt32 n)) size = n * size ↔ n ≤ 2147483647 := by
  constructor
  · intro h
    by_contra hgt
    obtain ⟨hlo, hhi⟩ := toInt32_range n
    unfold mulSizeT at h
    by_cases hneg : toInt32 n < 0
    · rw [toSizeT_of_neg hneg hlo, Nat.sub_mul] at h
      have hk1 : 1 ≤ (-toInt32 n).toNat := by omega
      have hk2 : (-toInt32 n).toNat ≤ 2147483648 := by omega
      have hP1 : 1 * 1 ≤ (-toInt32 n).toNat * size := Nat.mul_le_mul hk1 hs0
      have hP2 : (-toInt32 n).toNat * size ≤ 2147483648 * 8 := Nat.mul_le_mul hk2 hs
      generalize (-toInt32 n).toNat * size = P at h hP1 hP2
      generalize n * size = M at h hfit
      omega
    · rw [toSizeT_of_nonneg (by omega) hhi] at h
      have ht : (toInt32 n).toNat < 2147483648 := by omega
      have hP : (toInt32 n).toNat * size ≤ 2147483648 * 8 :=
        Nat.mul_le_mul (Nat.le_of_lt ht) hs
      rw [Nat.mod_eq_of_lt (by omega)] at h
      have := Nat.eq_of_mul_eq_mul_right hs0 h
      omega
  · intro h
    exact copyBytes_of_lt (by omega) hs

/-- C8: the forward call stores into the output buffer only: every cell outside `Z` keeps
its value, so inputs `X` and `Y` that do not overlap `Z` are unchanged (`bias` is passed by
value). Likewise the backward call changes no cell outside gradA and gradB, so a `topGrad`
that overlaps neither is unchanged. Both hold whether or not the device fails. -/
theorem launchers_write_outputs_only {T : Type} [Add T] (size : Nat)
    (context : OpKernelContext T) (mA_ mB_ mC_ : Tensor) (bias : T)
    (topdiff_ grad_mA_ grad_mB_ : Tensor)
    (hs0 : 0 < size) (hs : size ≤ 8)
    (hN : topdiff_.NumElements < 2147483648)
    (hX : separate mC_.data mA_.data mA_.NumElements)
    (hY : separate mC_.data mB_.data mA_.NumElements)
    (hA : separate grad_mA_.data topdiff_.data topdiff_.NumElements)
    (hB : separate grad_mB_.data topdiff_.data topdiff_.NumElements) :
    (∀ a, ¬ inBuffer mC_.data mA_.NumElements a →
      (functor.MatrixAddFunctor.launch context mA_ mB_ mC_ bias).eigen_gpu_device.mem a =
        context.eigen_gpu_device.mem a) ∧
    (∀ i, i < mA_.NumElements →
      (functor.MatrixAddFunctor.launch context mA_ mB_ mC_ bias).eigen_gpu_device.mem
          (mA_.data + i) = context.eigen_gpu_device.mem (mA_.data + i) ∧
      (functor.MatrixAddFunctor.launch context mA_ mB_ mC_ bias).eigen_gpu_device.mem
          (mB_.data + i) = context.eigen_gpu_device.mem (mB_.data + i)) ∧
    (∀ a, ¬ inBuffer grad_mA_.data topdiff_.NumElements a →
      ¬ inBuffer grad_mB_.data topdiff_.NumElements a →
      (functor.MatrixAddGrad.launch size context topdiff_ grad_mA_
        grad_mB_).eigen_gpu_device.mem a = context.eigen_gpu_device.mem a) ∧
    (∀ i, i < topdiff_.NumElements →
      (functor.MatrixAddGrad.launch size context topdiff_ grad_mA_
          grad_mB_).eigen_gpu_device.mem (topdiff_.data + i) =
        context.eigen_gpu_device.mem (topdiff_.data + i)) := by
  unfold separate at hX hY hA hB
  refine ⟨?_, ?_, ?_, ?_⟩
  · intro a ha
    exact forward_launch_frame context mA_ mB_ mC_ bias a ha
  · intro i hi
    constructor
    · exact forward_launch_frame context mA_ mB_ mC_ bias _ (by unfold inBuffer; omega)
    · exact forward_launch_frame context mA_ mB_ mC_ bias _ (by unfold inBuffer; omega)
  · intro a hao hbo
    exact backward_launch_frame size context topdiff_ grad_mA_ grad_mB_ hs0 hs hN a hao hbo
  · intro i hi
    exact backward_launch_frame size context topdiff_ grad_mA_ grad_mB_ hs0 hs hN _
      (by unfold inBuffer; omega) (by unfold inBuffer; omega)

/-- C8, instance: after a forward and after a backward call over nine cells, the input
cells hold what they held before. -/
theorem launchers_write_outputs_only_witness :
    (∀ i, i < 3 →
      (functor.MatrixAddFunctor.launch
          (contextWith ⟨1, 2⟩ []
            (memOfList (Int32.ofInt 0) ([1, 2, 3, 10, 20, 30, 0, 0, 0].map Int32.ofInt)))
          ⟨0, 3⟩ ⟨3, 3⟩ ⟨6, 3⟩ (Int32.ofInt 5)).eigen_gpu_device.mem (0 + i) =
        memOfList (Int32.ofInt 0) ([1, 2, 3, 10, 20, 30, 0, 0, 0].map Int32.ofInt) (0 + i) ∧
      (functor.MatrixAddFunctor.launch
          (contextWith ⟨1, 2⟩ []
            (memOfList (Int32.ofInt 0) ([1, 2, 3, 10, 20, 30, 0, 0, 0].map Int32.ofInt)))
          ⟨0, 3⟩ ⟨3, 3⟩ ⟨6, 3⟩ (Int32.ofInt 5)).eigen_gpu_device.mem (3 + i) =
        memOfList (Int32.ofInt 0) ([1, 2, 3, 10, 20, 30, 0, 0, 0].map Int32.ofInt) (3 + i)) ∧
    readBuffer
      (functor.MatrixAddFunctor.launch
          (contextWith ⟨1, 2⟩ []
            (memOfList (Int32.ofInt 0) ([1, 2, 3, 10, 20, 30, 0, 0, 0].map Int32.ofInt)))
          ⟨0, 3⟩ ⟨3, 3⟩ ⟨6, 3⟩ (Int32.ofInt 5)).eigen_gpu_device.mem 0 9 =
      [1, 2, 3, 10, 20, 30, 16, 27, 38].map Int32.ofInt :=
  ⟨(launchers_write_outputs_only 4
      (contextWith ⟨1, 2⟩ []
        (memOfList (Int32.ofInt 0) ([1, 2, 3, 10, 20, 30, 0, 0, 0].map Int32.ofInt)))
      ⟨0, 3⟩ ⟨3, 3⟩ ⟨6, 3⟩ (Int32.ofInt 5) ⟨0, 3⟩ ⟨3, 3⟩ ⟨6, 3⟩
      (by decide) (by decide) (by decide) (by decide) (by decide) (by decide)
      (by decide)).2.1,
    by decide⟩

/-- C9: for the element type `int` the forward addition wraps around: for all 32-bit
`X[i]`, `Y[i]` and `bias`, after a launch that reported no failure `Z[i]` is the
mathematical sum `X[i] + Y[i] + bias` reduced modulo `2^32` into `[-2^31, 2^31)`. -/
theorem forward_int32_wraps (context : OpKernelContext Int32) (mA_ mB_ mC_ : Tensor)
    (bias : Int32)
    (hN : mA_.NumElements < 2147483648)
    (hA : separate mC_.data mA_.data mA_.NumElements)
    (hB : separate mC_.data mB_.data mA_.NumElements)
    (hok : (functor.MatrixAddFunctor.launch context mA_ mB_ mC_ bias).reported =
      context.reported) :
    ∀ i, i < mA_.NumElements →
      ((functor.MatrixAddFunctor.launch context mA_ mB_ mC_ bias).eigen_gpu_device.mem
          (mC_.data + i)).toInt =
        toInt32 ((context.eigen_gpu_device.mem (mA_.data + i)).toInt +
          (context.eigen_gpu_device.mem (mB_.data + i)).toInt + bias.toInt) := by
  intro i hi
  rw [MatrixAddFunctor_launch_eq] at hok
  rw [forward_launch_value context mA_ mB_ mC_ bias hN hA hB
    (not_nextFails_of_reported hok) i hi, Int32.toInt_add, Int32.toInt_add,
    toInt32_add_toInt32]

/-- C9, instance: sums outside the 32-bit range. `2147483647 + 1 + 5` gives `-2147483643`,
`-2147483648 + -1 + 5` gives `-2147483644`, and `1 + 2 + 5` gives `8`. -/
theorem forward_int32_wraps_witness :
    (∀ i, i < 3 →
      ((functor.MatrixAddFunctor.launch
          (contextWith ⟨1, 2⟩ []
            (memOfList (Int32.ofInt 0)
              ([2147483647, -2147483648, 1, 1, -1, 2, 0, 0, 0].map Int32.ofInt)))
          ⟨0, 3⟩ ⟨3, 3⟩ ⟨6, 3⟩ (Int32.ofInt 5)).eigen_gpu_device.mem (6 + i)).toInt =
        toInt32
          ((memOfList (Int32.ofInt 0)
              ([2147483647, -2147483648, 1, 1, -1, 2, 0, 0, 0].map Int32.ofInt)
              (0 + i)).toInt +
            (memOfList (Int32.ofInt 0)
              ([2147483647, -2147483648, 1, 1, -1, 2, 0, 0, 0].map Int32.ofInt)
              (3 + i)).toInt +
            (Int32.ofInt 5).toInt)) ∧
    (readBuffer
      (functor.MatrixAddFunctor.launch
          (contextWith ⟨1, 2⟩ []
            (memOfList (Int32.ofInt 0)
              ([2147483647, -2147483648, 1, 1, -1, 2, 0, 0, 0].map Int32.ofInt)))
          ⟨0, 3⟩ ⟨3, 3⟩ ⟨6, 3⟩ (Int32.ofInt 5)).eigen_gpu_device.mem 6 3).map Int32.toInt =
      [-2147483643, -2147483644, 8] :=
  ⟨forward_int32_wraps
      (contextWith ⟨1, 2⟩ []
        (memOfList (Int32.ofInt 0)
          ([2147483647, -2147483648, 1, 1, -1, 2, 0, 0, 0].map Int32.ofInt)))
      ⟨0, 3⟩ ⟨3, 3⟩ ⟨6, 3⟩ (Int32.ofInt 5) (by decide) (by decide) (by decide) (by decide),
    by decide⟩

/-- C10: both launchers narrow the 64-bit element count to the `int` `N`, and `N` is the
true count exactly when the count is at most `2^31 - 1`. The forward call submits its
kernel with `virtual_thread_count = N`, so the number of indices its grid visits equals the
count exactly for such counts; the backward call submits its two copies with
`N * sizeof(T)` bytes, computed in `size_t`, which equals the byte size of the tensor
exactly for such counts (for a tensor whose byte size is below `2^63`). -/
theorem element_count_narrowed_to_int {T : Type} [Add T] (size : Nat)
    (context : OpKernelContext T) (mA_ mB_ mC_ : Tensor) (bias : T)
    (topdiff_ grad_mA_ grad_mB_ : Tensor)
    (hs0 : 0 < size) (hs : size ≤ 8)
    (hfit : topdiff_.NumElements * size < 9223372036854775808) :
    ((toInt32 mA_.NumElements = mA_.NumElements ↔ mA_.NumElements ≤ 2147483647) ∧
      DeviceEvent.kernelLaunch
          (GetLaunchConfig (toInt32 mA_.NumElements) context.eigen_gpu_device.caps).block_count
          (GetLaunchConfig (toInt32 mA_.NumElements)
            context.eigen_gpu_device.caps).thread_per_block
          (toInt32 mA_.NumElements) ∈
        (functor.MatrixAddFunctor.launch context mA_ mB_ mC_ bias).eigen_gpu_device.events ∧
      ((visited
          (GetLaunchConfig (toInt32 mA_.NumElements)
            context.eigen_gpu_device.caps).block_count.toNat
          (GetLaunchConfig (toInt32 mA_.NumElements)
            context.eigen_gpu_device.caps).thread_per_block.toNat
          (toInt32 mA_.NumElements)).length = mA_.NumElements ↔
        mA_.NumElements ≤ 2147483647)) ∧
    ((toInt32 topdiff_.NumElements = topdiff_.NumElements ↔
        topdiff_.NumElements ≤ 2147483647) ∧
      DeviceEvent.memcpy grad_mA_.data topdiff_.data
          (mulSizeT (toSizeT (toInt32 topdiff_.NumElements)) size) ∈
        (functor.MatrixAddGrad.launch size context topdiff_ grad_mA_
          grad_mB_).eigen_gpu_device.events ∧
      DeviceEvent.memcpy grad_mB_.data topdiff_.data
          (mulSizeT (toSizeT (toInt32 topdiff_.NumElements)) size) ∈
        (functor.MatrixAddGrad.launch size context topdiff_ grad_mA_
          grad_mB_).eigen_gpu_device.events ∧
      (mulSizeT (toSizeT (toInt32 topdiff_.NumElements)) size =
          topdiff_.NumElements * size ↔
        topdiff_.NumElements ≤ 2147483647)) := by
  rw [MatrixAddFunctor_launch_eq, MatrixAddGrad_launch_eq]
  refine ⟨⟨toInt32_eq_iff _, by simp, ?_⟩, ⟨toInt32_eq_iff _, by simp, by simp, ?_⟩⟩
  · rw [length_visited (GetLaunchConfig_grid_pos _ _)]
    unfold toInt32
    omega
  · exact copyBytes_eq_iff hs0 hs hfit

/-- C10, instance: a count of `2^32 + 3` elements is narrowed to `N = 3`: the forward
kernel is launched over 3 indices and each backward copy moves 12 bytes. -/
theorem element_count_narrowed_to_int_witness :
    ((toInt32 ((4294967299 : Nat) : Int) = ((4294967299 : Nat) : Int) ↔
        4294967299 ≤ 2147483647) ∧
      (mulSizeT (toSizeT (toInt32 ((4294967299 : Nat) : Int))) 4 = 4294967299 * 4 ↔
        4294967299 ≤ 2147483647)) ∧
    toInt32 ((4294967299 : Nat) : Int) = 3 ∧
    (functor.MatrixAddFunctor.launch
        (contextWith ⟨1, 2⟩ [] (memOfList (Int32.ofInt 0) []))
        ⟨0, 4294967299⟩ ⟨0, 4294967299⟩ ⟨0, 4294967299⟩
        (Int32.ofInt 5)).eigen_gpu_device.events =
      [.kernelLaunch 2 1 3, .okQuery true] ∧
    (functor.MatrixAddGrad.launch 4
        (contextWith ⟨1, 2⟩ [] (memOfList (Int32.ofInt 0) []))
        ⟨0, 4294967299⟩ ⟨0, 4294967299⟩ ⟨0, 4294967299⟩).eigen_gpu_device.events =
      [.memcpy 0 0 12, .memcpy 0 0 12, .okQuery true] :=
  ⟨⟨(element_count_narrowed_to_int 4
        (contextWith ⟨1, 2⟩ [] (memOfList (Int32.ofInt 0) []))
        ⟨0, 4294967299⟩ ⟨0, 4294967299⟩ ⟨0, 4294967299⟩ (Int32.ofInt 5)
        ⟨0, 4294967299⟩ ⟨0, 4294967299⟩ ⟨0, 4294967299⟩
        (by decide) (by decide) (by decide)).1.1,
      (element_count_narrowed_to_int 4
        (contextWith ⟨1, 2⟩ [] (memOfList (Int32.ofInt 0) []))
        ⟨0, 4294967299⟩ ⟨0, 4294967299⟩ ⟨0, 4294967299⟩ (Int32.ofInt 5)
        ⟨0, 4294967299⟩ ⟨0, 4294967299⟩ ⟨0, 4294967299⟩
        (by decide) (by decide) (by decide)).2.2.2.2⟩,
    by decide, by decide, by decide⟩

end tensorflow
